import Mathlib

/-!
# Car-manager: verification of the persistence / migration / query core

Shallow embedding of the Car-manager web application (files `utils.js` and the
application script embedded in `DEPLOY.md`).  JavaScript objects are embedded as
Lean structures with `Option` fields for properties that may be absent
(`undefined`/`null`); JS numbers that the code compares with `parseFloat` are
embedded as `Rat` (every value the app manipulates is a finite decimal, on
which float and rational comparison agree); the asynchronous IndexedDB /
localStorage pair is embedded as an explicit `CarStore` state record threaded
through every operation, with a `primaryFails` flag selecting the
`catch`-fallback path of each storage function.  `Date.now()` /
`new Date().toISOString()` are modelled by an explicit millisecond counter
(`clock`) resp. an explicit `now : String` argument.
-/

namespace CarSpec

/-! ## Normalization utilities — `utils.js`

`normalizeRegistration` (utils.js lines 67-70):
`registration ? registration.toUpperCase().replace(/\s+/g, '') : ''`.
`String.prototype.toUpperCase` is modelled by `Char.toUpper` (basic-latin
uppercasing) and the `\s`-strip by removing `Char.isWhitespace` characters.
For the empty string the JS falsy branch returns `''`, which coincides with
uppercasing and stripping the empty string, so no separate test is needed. -/

def normalizeRegistration (registration : String) : String :=
  ⟨(registration.data.map Char.toUpper).filter (fun c => !c.isWhitespace)⟩

/-! ## Data model

`Car` embeds the record object built by `extractCarDataFromForm` /
`migrateLogsToCars` / `importData`.  Absent JS properties are `none`;
`starred` / `flagged` are read by the app only through `=== true`
(`applySearchAndFilters`) and `|| false` (`preserveCarMetadata`), so an absent
flag is observationally `false` and both are embedded as `Bool`.
`year` is stored by the form as a string but only ever compared numerically
(`parseFloat`) by `applySorting`; we embed its numeric value. -/

structure Car where
  id : Option Nat := none
  registration : Option String := none
  year : Option Rat := none
  price : Option Rat := none
  mileage : Option Rat := none
  transmission : Option String := none
  engineSize : Option Rat := none
  fuelType : Option String := none
  colors : Option String := none
  insuranceGroup : Option Nat := none
  rating : Option Nat := none
  spec : Option String := none
  contact : Option String := none
  comments : Option String := none
  vehicleScore : Option String := none
  websiteLink : Option String := none
  starred : Bool := false
  flagged : Bool := false
  timestamp : Option String := none
  deriving Repr, DecidableEq

/-- Legacy log entry (`LogStorage` records): `{ url, registration, timestamp }`
plus the store-assigned `id`. -/
structure LogEntry where
  id : Option Nat := none
  registration : Option String := none
  url : Option String := none
  timestamp : Option String := none
  deriving Repr, DecidableEq

/-! ## The Store — `utils.js` lines 127-464

The dual-tier storage is embedded as one state record.  `primaryFails = true`
means every IndexedDB request rejects, sending each `CarStorage` method into
its `catch` fallback over `localStorage` (`lsCars` embeds the parsed
`carDetailsEntries` blob, `[]` when absent).  `idbNextId` is the autoIncrement
counter of the `cars` object store; `clock` is the millisecond clock backing
`Date.now()` (modelled as strictly increasing across calls, hence never 0 at
a call). -/

structure CarStore where
  primaryFails : Bool
  idbCars : List Car
  idbNextId : Nat
  lsCars : List Car
  clock : Nat
  deriving Repr, DecidableEq

/-- IndexedDB `put` with in-line key `id` (utils.js `updateInStore`):
replace the entry with that key, or insert the object if the key is absent. -/
def putById (l : List Car) (i : Nat) (car : Car) : List Car :=
  if l.any (fun c => c.id == some i) then
    l.map (fun c => if c.id = some i then car else c)
  else l ++ [car]

/-- The localStorage fallback of `CarStorage.save` for a car that has an id
(utils.js lines 300-304): `findIndex` then in-place replacement of the first
match; when no index matches the list is left unchanged (nothing is pushed). -/
def replaceById (l : List Car) (i : Nat) (car : Car) : List Car :=
  match l with
  | [] => []
  | c :: cs => if c.id = some i then car :: cs else c :: replaceById cs i car

namespace CarStorage

/-- `CarStorage.getAll` (utils.js lines 277-286): the IndexedDB result, or on
engine failure the parsed `carDetailsEntries` localStorage blob (`[]` when
absent). -/
def getAll (s : CarStore) : List Car :=
  if s.primaryFails then s.lsCars else s.idbCars

/-- `CarStorage.save` (utils.js lines 288-313).  `if (car.id)` is JS
truthiness: an absent id or id `0` takes the insert branch, which stamps
`car.timestamp = new Date().toISOString()` and assigns a fresh identifier
(autoIncrement key, resp. `Date.now()` in the fallback).  A truthy id takes
the update branch (`put`, resp. splice-by-`findIndex`), which does not touch
`timestamp`.  Returns the updated store and the resolved id (`savedId`). -/
def save (now : String) (car : Car) (s : CarStore) : CarStore × Nat :=
  match car.id with
  | some (i + 1) =>
    if s.primaryFails then
      ({ s with lsCars := replaceById s.lsCars (i + 1) car }, i + 1)
    else
      ({ s with idbCars := putById s.idbCars (i + 1) car }, i + 1)
  | _ =>
    if s.primaryFails then
      let newId := s.clock + 1
      ({ s with
          lsCars := s.lsCars ++ [{ car with id := some newId, timestamp := some now }],
          clock := newId }, newId)
    else
      let newId := s.idbNextId + 1
      ({ s with
          idbCars := s.idbCars ++ [{ car with id := some newId, timestamp := some now }],
          idbNextId := newId }, newId)

end CarStorage

/-! ## Migration — `migrateLogsToCars` (DEPLOY.md lines 153-188) -/

/-- App-level state seen by the migration routine: the car store plus the
legacy-log collection. -/
structure AppState where
  carStore : CarStore
  logs : List LogEntry
  deriving Repr, DecidableEq

/-- Loop state of `migrateLogsToCars`: the store, the
`existingRegistrations` set (a list used only through membership) and the
`migrated` counter. -/
structure MigAcc where
  store : CarStore
  seen : List String
  migrated : Nat
  deriving Repr, DecidableEq

/-- One iteration of the `for (const log of logs)` loop of
`migrateLogsToCars`: normalize the log's registration, skip when it is empty
or already seen, otherwise synthesize the minimal car record, save it and (the
returned id being truthy) extend the seen-set and the counter. -/
def migrateStep (now : String) (acc : MigAcc) (log : LogEntry) : MigAcc :=
  let reg := normalizeRegistration (log.registration.getD "")
  if reg ≠ "" ∧ reg ∉ acc.seen then
    let car : Car := { registration := some reg,
                       websiteLink := some (log.url.getD ""),
                       timestamp := some (log.timestamp.getD now) }
    let res := CarStorage.save now car acc.store
    if res.2 ≠ 0 then
      { store := res.1, seen := reg :: acc.seen, migrated := acc.migrated + 1 }
    else
      { acc with store := res.1 }
  else acc

/-- `migrateLogsToCars` (DEPLOY.md lines 153-188): no-op on an empty log
collection; otherwise seed the seen-set from the normalized registrations of
the existing cars, run the loop, and clear the log collection iff at least one
entry was migrated. -/
def migrateLogsToCars (now : String) (s : AppState) : AppState :=
  if s.logs = [] then s
  else
    let existingCars := CarStorage.getAll s.carStore
    let seen0 := existingCars.map (fun c => normalizeRegistration (c.registration.getD ""))
    let acc := s.logs.foldl (migrateStep now) ⟨s.carStore, seen0, 0⟩
    if 0 < acc.migrated then ⟨acc.store, []⟩ else ⟨acc.store, s.logs⟩

/-! ## Query engine: search and filters — `applySearchAndFilters`
(DEPLOY.md lines 431-484)

The function ends by sorting the filtered list (`applySorting` or the default
timestamp order), which only permutes it; the sorting comparators are embedded
separately below, and `applySearchAndFilters` here embeds the
search/filter portion (lines 431-470), which determines membership. -/

/-- The four `currentFilters` values (DEPLOY.md lines 91-96), kept as the raw
strings the page supplies (`"all" | "starred" | "unstarred"` etc.). -/
structure Filters where
  star : String := "all"
  flag : String := "all"
  transmission : String := "all"
  fuelType : String := "all"
  deriving Repr, DecidableEq

/-- `toLowerCase` on the character sequence (`String.toLower` is exactly this
map, spelled on `data` so proofs can reason character-wise). -/
def lowerData (s : String) : List Char := s.data.map Char.toLower

/-- One disjunct of the search test on a string field, e.g.
`car.spec && car.spec.toLowerCase().includes(searchLower)`: the field must be
present and truthy (non-empty) and contain the lowercased term as a
substring. -/
def strFieldHit (field : Option String) (searchTerm : String) : Bool :=
  match field with
  | none => false
  | some s => s != "" && decide (lowerData searchTerm <:+: lowerData s)

/-- The rating disjunct `car.rating && String(car.rating).includes(searchLower)`:
JS truthiness makes a rating of `0` (and an absent rating) never searchable;
the decimal digits of the rating are not themselves lowercased by the code. -/
def ratingHit (rating : Option Nat) (searchTerm : String) : Bool :=
  match rating with
  | none => false
  | some r => r != 0 && decide (lowerData searchTerm <:+: (toString r).data)

/-- The search predicate of `applySearchAndFilters` (DEPLOY.md lines 437-445).
The source lowercases the term once (`searchLower`); here each disjunct lowers
the same term, which is the same test. -/
def searchMatch (searchTerm : String) (car : Car) : Bool :=
  strFieldHit car.registration searchTerm ||
  strFieldHit car.spec searchTerm ||
  strFieldHit car.comments searchTerm ||
  strFieldHit car.contact searchTerm ||
  ratingHit car.rating searchTerm

/-- `applySearchAndFilters` (DEPLOY.md lines 431-470): search filter (skipped
for a falsy term), then the four filter predicates, each skipped when its
value is `"all"`; `starred`/`flagged` are tested with `=== true`, transmission
and fuel type with strict string equality. -/
def applySearchAndFilters (filters : Filters) (cars : List Car) (searchTerm : String) :
    List Car :=
  let f1 := if searchTerm ≠ "" then cars.filter (searchMatch searchTerm) else cars
  let f2 := if filters.star ≠ "all" then
      f1.filter (fun c => if filters.star = "starred" then c.starred else !c.starred)
    else f1
  let f3 := if filters.flag ≠ "all" then
      f2.filter (fun c => if filters.flag = "flagged" then c.flagged else !c.flagged)
    else f2
  let f4 := if filters.transmission ≠ "all" then
      f3.filter (fun c => c.transmission == some filters.transmission)
    else f3
  let f5 := if filters.fuelType ≠ "all" then
      f4.filter (fun c => c.fuelType == some filters.fuelType)
    else f4
  f5

/-! ## Query engine: sorting — `applySorting` (DEPLOY.md lines 487-523)

Only the six numeric columns are embedded (the string branch compares with the
locale-dependent `localeCompare`, which no claim touches).  The JS comparator
for a numeric column is `aVal - bVal` (ascending) or `bVal - aVal`
(descending) after replacing `null`/`''`/unparsable by `0`;
`Array.prototype.sort` is specified (ES2019) to be a stable sort consistent
with the comparator, which we embed as Mathlib's stable `List.insertionSort`
over the corresponding non-strict relation. -/

inductive SortColumn where
  | price | mileage | engineSize | insuranceGroup | rating | year
  deriving Repr, DecidableEq

/-- The numeric sort key: the column's value with a missing value as `0`
(`aVal == null → ''`, then `'' → 0`, `parseFloat(x) || 0`). -/
def numVal (col : SortColumn) (c : Car) : Rat :=
  match col with
  | .price => c.price.getD 0
  | .mileage => c.mileage.getD 0
  | .engineSize => c.engineSize.getD 0
  | .insuranceGroup => (c.insuranceGroup.getD 0 : Nat)
  | .rating => (c.rating.getD 0 : Nat)
  | .year => c.year.getD 0

/-- `a` may be placed before `b` by the comparator: `aVal - bVal <= 0` for
ascending, `bVal - aVal <= 0` for descending. -/
def sortRel (col : SortColumn) (asc : Bool) (a b : Car) : Prop :=
  if asc then numVal col a ≤ numVal col b else numVal col b ≤ numVal col a

instance (col : SortColumn) (asc : Bool) : DecidableRel (sortRel col asc) := by
  intro a b
  unfold sortRel
  infer_instance

/-- `applySorting` on a numeric column (DEPLOY.md lines 487-523), as the
stable sort by the comparator. -/
def applySorting (cars : List Car) (col : SortColumn) (asc : Bool) : List Car :=
  List.insertionSort (sortRel col asc) cars

/-! ## Edit flow — `saveCar` / `preserveCarMetadata`
(DEPLOY.md lines 1133-1170 and 1330-1337) -/

/-- The object returned by `extractCarDataFromForm` (DEPLOY.md lines
1309-1327): the form's field values with no `id`, `timestamp`, `starred` or
`flagged` properties.  We embed it as an arbitrary `Car` with those four
members forced to their absent values. -/
def formCar (form : Car) : Car :=
  { form with id := none, timestamp := none, starred := false, flagged := false }

/-- `preserveCarMetadata` (DEPLOY.md lines 1330-1337): when the existing car
was found, copy its `timestamp` and its `starred || false` / `flagged || false`
onto the edited object. -/
def preserveCarMetadata (car : Car) (existingCar : Option Car) : Car :=
  match existingCar with
  | some e => { car with timestamp := e.timestamp, starred := e.starred, flagged := e.flagged }
  | none => car

/-- The save path of `saveCar` when `currentEditingCarId` is set (DEPLOY.md
lines 1142-1151): take the form data, attach the editing id, preserve the
metadata of the matching entry of `allCars`, and save. -/
def saveEditedCar (now : String) (editingId : Nat) (allCars : List Car) (form : Car)
    (s : CarStore) : CarStore × Nat :=
  let car := { formCar form with id := some editingId }
  let existingCar := allCars.find? (fun c => c.id == some editingId)
  CarStorage.save now (preserveCarMetadata car existingCar) s

/-! ## `extractYearFromRegistration` (DEPLOY.md lines 1286-1306) -/

/-- `extractYearFromRegistration`: falsy input gives `null`; otherwise the
normalized registration is matched against `/^[A-Z]{2}(\d{2})[A-Z]{3}$/` and
the two-digit code is mapped to a year (`50-99 → 2000 + (code - 50)`,
`0-49 → 2000 + code`). -/
def extractYearFromRegistration (registration : String) : Option Nat :=
  if registration = "" then none
  else
    match (normalizeRegistration registration).data with
    | [a, b, c, d, e, f, g] =>
      if a.isUpper && b.isUpper && c.isDigit && d.isDigit &&
         e.isUpper && f.isUpper && g.isUpper then
        if 50 ≤ (c.toNat - 48) * 10 + (d.toNat - 48) ∧
           (c.toNat - 48) * 10 + (d.toNat - 48) ≤ 99
        then some (2000 + ((c.toNat - 48) * 10 + (d.toNat - 48) - 50))
        else if (c.toNat - 48) * 10 + (d.toNat - 48) ≤ 49
        then some (2000 + ((c.toNat - 48) * 10 + (d.toNat - 48)))
        else none
      else none
    | _ => none

/-! ## Export / import — `exportData` (DEPLOY.md lines 1361-1387) and
`importData` (DEPLOY.md lines 1390-1442) -/

/-- The parsed JSON import payload.  `cars := none` embeds a payload whose
`cars` member is missing or not an array
(`!importData.cars || !Array.isArray(importData.cars)`). -/
structure ImportPayload where
  version : Option String := none
  exportDate : Option String := none
  cars : Option (List Car) := none
  deriving Repr, DecidableEq

/-- `exportData` (the data it serializes, DEPLOY.md lines 1363-1368):
`{ version: '1.0', exportDate: now, cars: getAll() }`. -/
def exportData (now : String) (s : CarStore) : ImportPayload :=
  { version := some "1.0", exportDate := some now, cars := some (CarStorage.getAll s) }

/-- Loop state of `importData`: store, seen-set, `imported` and `skipped`. -/
structure ImportAcc where
  store : CarStore
  seen : List String
  imported : Nat
  skipped : Nat
  deriving Repr, DecidableEq

/-- One iteration of the `for (const car of importData.cars)` loop (DEPLOY.md
lines 1411-1428): skip (counting it) when the non-empty normalized
registration is already seen; otherwise delete `id`, default a missing
`timestamp` to now, save, extend the seen-set when the registration is
non-empty, and count the import. -/
def importStep (now : String) (acc : ImportAcc) (car : Car) : ImportAcc :=
  let reg := normalizeRegistration (car.registration.getD "")
  if reg ≠ "" ∧ reg ∈ acc.seen then
    { acc with skipped := acc.skipped + 1 }
  else
    let car' := { car with id := none, timestamp := some (car.timestamp.getD now) }
    let res := CarStorage.save now car' acc.store
    { store := res.1,
      seen := if reg ≠ "" then reg :: acc.seen else acc.seen,
      imported := acc.imported + 1,
      skipped := acc.skipped }

/-- `importData` (DEPLOY.md lines 1390-1442) on an already-parsed payload:
`none` is the `Invalid file format` error (store untouched); otherwise the
seen-set is seeded from the current collection (`allCars`, the loaded mirror
of `getAll`) and the loop runs, reporting `(imported, skipped)`. -/
def importData (now : String) (p : ImportPayload) (s : CarStore) :
    CarStore × Option (Nat × Nat) :=
  match p.cars with
  | none => (s, none)
  | some cars =>
    let seen0 := (CarStorage.getAll s).map
      (fun c => normalizeRegistration (c.registration.getD ""))
    let acc := cars.foldl (importStep now) ⟨s, seen0, 0, 0⟩
    (acc.store, some (acc.imported, acc.skipped))

/-- Ids and timestamps that `importData` assigns when nothing is skipped and
the primary engine works: the `k`-th record receives the key `nextId + k + 1`
and the save-time timestamp. -/
def stampFrom (nextId : Nat) (now : String) : List Car → List Car
  | [] => []
  | c :: cs =>
    { c with id := some (nextId + 1), timestamp := some now } :: stampFrom (nextId + 1) now cs

/-! ## Basic facts about `CarStorage.save` -/

theorem save_none_fallback (now : String) (car : Car) (s : CarStore)
    (h : car.id = none) (hpf : s.primaryFails = true) :
    CarStorage.save now car s =
      ({ s with
          lsCars := s.lsCars ++ [{ car with id := some (s.clock + 1), timestamp := some now }],
          clock := s.clock + 1 }, s.clock + 1) := by
  unfold CarStorage.save
  rw [h, hpf]
  simp

theorem save_none_primary (now : String) (car : Car) (s : CarStore)
    (h : car.id = none) (hpf : s.primaryFails = false) :
    CarStorage.save now car s =
      ({ s with
          idbCars := s.idbCars ++ [{ car with id := some (s.idbNextId + 1), timestamp := some now }],
          idbNextId := s.idbNextId + 1 }, s.idbNextId + 1) := by
  unfold CarStorage.save
  rw [h, hpf]
  simp

/-- Inserting an id-less car appends the freshly-stamped record to `getAll`,
on either storage tier. -/
theorem getAll_save_none (now : String) (car : Car) (s : CarStore) (h : car.id = none) :
    CarStorage.getAll (CarStorage.save now car s).1 =
      CarStorage.getAll s ++
        [{ car with id := some ((CarStorage.save now car s).2), timestamp := some now }] := by
  cases hpf : s.primaryFails
  · rw [save_none_primary now car s h hpf]
    simp [CarStorage.getAll, hpf]
  · rw [save_none_fallback now car s h hpf]
    simp [CarStorage.getAll, hpf]

/-- `save` leaves the failure mode unchanged. -/
theorem save_primaryFails (now : String) (car : Car) (s : CarStore) :
    (CarStorage.save now car s).1.primaryFails = s.primaryFails := by
  unfold CarStorage.save
  rcases car.id with _ | ⟨_ | i⟩ <;> cases hpf : s.primaryFails <;> simp [hpf]

/-- The resolved id (`savedId`) is always truthy: positive keys from
autoIncrement, `Date.now()` in the fallback, or the truthy id of the update
branch. -/
theorem save_snd_pos (now : String) (car : Car) (s : CarStore) :
    0 < (CarStorage.save now car s).2 := by
  unfold CarStorage.save
  rcases car.id with _ | ⟨_ | i⟩ <;> cases hpf : s.primaryFails <;> simp [hpf]

/-! ## Migration lemmas -/

/-- The skip condition of the migration loop: the entry's normalized
registration is empty or already seen. -/
def migSkip (seen : List String) (log : LogEntry) : Prop :=
  normalizeRegistration (log.registration.getD "") = "" ∨
  normalizeRegistration (log.registration.getD "") ∈ seen

instance (seen : List String) (log : LogEntry) : Decidable (migSkip seen log) := by
  unfold migSkip
  infer_instance

theorem migrateStep_skip (now : String) (acc : MigAcc) (log : LogEntry)
    (h : migSkip acc.seen log) : migrateStep now acc log = acc := by
  unfold migrateStep migSkip at *
  rw [if_neg]
  tauto

/-- The minimal record the migration loop hands to `CarStorage.save`. -/
def migCar (now : String) (log : LogEntry) : Car :=
  { registration := some (normalizeRegistration (log.registration.getD "")),
    websiteLink := some (log.url.getD ""),
    timestamp := some (log.timestamp.getD now) }

theorem migrateStep_not_skip (now : String) (acc : MigAcc) (log : LogEntry)
    (h : ¬ migSkip acc.seen log) :
    migrateStep now acc log =
      { store := (CarStorage.save now (migCar now log) acc.store).1,
        seen := normalizeRegistration (log.registration.getD "") :: acc.seen,
        migrated := acc.migrated + 1 } := by
  have hpos : (CarStorage.save now (migCar now log) acc.store).2 ≠ 0 :=
    Nat.pos_iff_ne_zero.mp (save_snd_pos now (migCar now log) acc.store)
  unfold migCar at hpos
  unfold migSkip at h
  push_neg at h
  unfold migrateStep
  rw [if_pos h]
  simp [hpos, migCar]

theorem migrateStep_migrated_mono (now : String) (acc : MigAcc) (log : LogEntry) :
    acc.migrated ≤ (migrateStep now acc log).migrated := by
  by_cases h : migSkip acc.seen log
  · rw [migrateStep_skip now acc log h]
  · rw [migrateStep_not_skip now acc log h]
    exact Nat.le_succ _

theorem migrateFold_migrated_mono (now : String) :
    ∀ (l : List LogEntry) (acc : MigAcc),
      acc.migrated ≤ (l.foldl (migrateStep now) acc).migrated := by
  intro l
  induction l with
  | nil => intro acc; exact Nat.le_refl _
  | cons h t ih =>
    intro acc
    exact Nat.le_trans (migrateStep_migrated_mono now acc h) (ih (migrateStep now acc h))

theorem migrateStep_migrated_of_not_skip (now : String) (acc : MigAcc) (log : LogEntry)
    (h : ¬ migSkip acc.seen log) :
    (migrateStep now acc log).migrated = acc.migrated + 1 := by
  rw [migrateStep_not_skip now acc log h]

/-- If a pass creates nothing, the whole fold is stationary and every entry of
the list satisfies the skip condition for the initial seen-set. -/
theorem migrateFold_stationary (now : String) :
    ∀ (l : List LogEntry) (acc : MigAcc),
      (l.foldl (migrateStep now) acc).migrated = acc.migrated →
      l.foldl (migrateStep now) acc = acc ∧ ∀ log ∈ l, migSkip acc.seen log := by
  intro l
  induction l with
  | nil => intro acc _; exact ⟨rfl, by simp⟩
  | cons h t ih =>
    intro acc hm
    by_cases hs : migSkip acc.seen h
    · have h1 : migrateStep now acc h = acc := migrateStep_skip now acc h hs
      rw [List.foldl_cons, h1] at hm ⊢
      obtain ⟨he, hall⟩ := ih acc hm
      exact ⟨he, by simpa [hs] using hall⟩
    · exfalso
      have h1 := migrateStep_migrated_of_not_skip now acc h hs
      have h2 := migrateFold_migrated_mono now t (migrateStep now acc h)
      rw [List.foldl_cons] at hm
      omega

/-- Conversely a pass over entries that all skip is stationary. -/
theorem migrateFold_all_skip (now : String) :
    ∀ (l : List LogEntry) (acc : MigAcc),
      (∀ log ∈ l, migSkip acc.seen log) → l.foldl (migrateStep now) acc = acc := by
  intro l
  induction l with
  | nil => intro acc _; rfl
  | cons h t ih =>
    intro acc hall
    have h1 : migrateStep now acc h = acc := migrateStep_skip now acc h (hall h (by simp))
    rw [List.foldl_cons, h1]
    exact ih acc (fun log hl => hall log (by simp [hl]))

/-- The loop accumulator of `migrateLogsToCars` (naming the `let`-bound value
for use in proofs). -/
def migrateAcc (now : String) (s : AppState) : MigAcc :=
  s.logs.foldl (migrateStep now)
    ⟨s.carStore,
     (CarStorage.getAll s.carStore).map (fun c => normalizeRegistration (c.registration.getD "")),
     0⟩

theorem migrateLogsToCars_eq (now : String) (s : AppState) :
    migrateLogsToCars now s =
      if s.logs = [] then s
      else if 0 < (migrateAcc now s).migrated then ⟨(migrateAcc now s).store, []⟩
      else ⟨(migrateAcc now s).store, s.logs⟩ := rfl

/-- One loop iteration grows the store by exactly one record per migrated
entry. -/
theorem migrateStep_length (now : String) (acc : MigAcc) (log : LogEntry) :
    (CarStorage.getAll (migrateStep now acc log).store).length + acc.migrated =
      (CarStorage.getAll acc.store).length + (migrateStep now acc log).migrated := by
  by_cases hs : migSkip acc.seen log
  · rw [migrateStep_skip now acc log hs]
  · rw [migrateStep_not_skip now acc log hs]
    simp [getAll_save_none now (migCar now log) acc.store rfl]
    omega

/-- Along the loop, the store grows by exactly one record per migrated entry. -/
theorem migrateFold_length (now : String) :
    ∀ (l : List LogEntry) (acc : MigAcc),
      (CarStorage.getAll (l.foldl (migrateStep now) acc).store).length + acc.migrated =
        (CarStorage.getAll acc.store).length + (l.foldl (migrateStep now) acc).migrated := by
  intro l
  induction l with
  | nil => intro acc; rfl
  | cons h t ih =>
    intro acc
    rw [List.foldl_cons]
    have h1 := migrateStep_length now acc h
    have h2 := ih (migrateStep now acc h)
    omega

/-- The initial seen-set of a migration run: the normalized registrations of
the records currently in the Store. -/
def seenInit (s : AppState) : List String :=
  (CarStorage.getAll s.carStore).map (fun c => normalizeRegistration (c.registration.getD ""))

theorem migrateAcc_def (now : String) (s : AppState) :
    migrateAcc now s = s.logs.foldl (migrateStep now) ⟨s.carStore, seenInit s, 0⟩ := rfl

theorem migrateAcc_length (now : String) (s : AppState) :
    (CarStorage.getAll (migrateAcc now s).store).length =
      (CarStorage.getAll s.carStore).length + (migrateAcc now s).migrated := by
  have h := migrateFold_length now s.logs ⟨s.carStore, seenInit s, 0⟩
  rw [migrateAcc_def]
  simpa using h

theorem migrateAcc_stationary (now : String) (s : AppState)
    (h : (migrateAcc now s).migrated = 0) :
    migrateAcc now s = ⟨s.carStore, seenInit s, 0⟩ ∧ ∀ log ∈ s.logs, migSkip (seenInit s) log := by
  rw [migrateAcc_def] at h ⊢
  obtain ⟨heq, hall⟩ := migrateFold_stationary now s.logs ⟨s.carStore, seenInit s, 0⟩ (by simpa using h)
  exact ⟨heq, by simpa using hall⟩

theorem migrateAcc_all_skip (now : String) (s : AppState)
    (h : ∀ log ∈ s.logs, migSkip (seenInit s) log) :
    migrateAcc now s = ⟨s.carStore, seenInit s, 0⟩ := by
  rw [migrateAcc_def]
  exact migrateFold_all_skip now s.logs ⟨s.carStore, seenInit s, 0⟩ (by simpa using h)

/-! ## Claim C1 — per-entry behaviour of the migration loop (corrected) -/

/-- **C1** (amended).  For every legacy log entry processed by the migration
loop: if its normalized registration is empty or already in the seen-set the
entry is skipped silently (the state is unchanged — no error, no duplicate);
otherwise a minimal record with that registration and `websiteLink` equal to
the log's url is saved via the Store under a fresh truthy id, the seen-set and
the migrated counter grow, and the persisted record's `timestamp` is the save
time `now` — not the log's timestamp, which `CarStorage.save` overwrites when
inserting an id-less record. -/
theorem C1_migration_entry_behavior (now : String) (acc : MigAcc) (log : LogEntry) :
    (migSkip acc.seen log → migrateStep now acc log = acc) ∧
    (¬ migSkip acc.seen log →
      ∃ i, i ≠ 0 ∧
        CarStorage.getAll (migrateStep now acc log).store =
          CarStorage.getAll acc.store ++
            [{ id := some i,
               registration := some (normalizeRegistration (log.registration.getD "")),
               websiteLink := some (log.url.getD ""),
               timestamp := some now }] ∧
        (migrateStep now acc log).seen =
          normalizeRegistration (log.registration.getD "") :: acc.seen ∧
        (migrateStep now acc log).migrated = acc.migrated + 1) := by
  refine ⟨fun h => migrateStep_skip now acc log h, fun h => ?_⟩
  rw [migrateStep_not_skip now acc log h]
  refine ⟨(CarStorage.save now (migCar now log) acc.store).2,
    Nat.pos_iff_ne_zero.mp (save_snd_pos _ _ _), ?_, rfl, rfl⟩
  show CarStorage.getAll (CarStorage.save now (migCar now log) acc.store).1 = _
  rw [getAll_save_none now (migCar now log) acc.store rfl]
  rfl

theorem C1_migration_entry_behavior_witness :
    (migrateStep "T" ⟨⟨false, [], 0, [], 0⟩, ["AB12CDE"], 0⟩ { registration := some "ab 12cde" } =
      ⟨⟨false, [], 0, [], 0⟩, ["AB12CDE"], 0⟩) ∧
    ∃ i, i ≠ 0 ∧
      CarStorage.getAll (migrateStep "T" ⟨⟨false, [], 0, [], 0⟩, ["AB12CDE"], 0⟩
          { registration := some "cd 34fgh", url := some "u" }).store =
        CarStorage.getAll (⟨⟨false, [], 0, [], 0⟩, ["AB12CDE"], (0 : Nat)⟩ : MigAcc).store ++
          [{ id := some i,
             registration := some (normalizeRegistration
               ((({ registration := some "cd 34fgh", url := some "u" } : LogEntry)).registration.getD "")),
             websiteLink := some ((({ registration := some "cd 34fgh", url := some "u" } : LogEntry)).url.getD ""),
             timestamp := some "T" }] ∧
      (migrateStep "T" ⟨⟨false, [], 0, [], 0⟩, ["AB12CDE"], 0⟩
          { registration := some "cd 34fgh", url := some "u" }).seen =
        normalizeRegistration
          ((({ registration := some "cd 34fgh", url := some "u" } : LogEntry)).registration.getD "") ::
          (⟨⟨false, [], 0, [], 0⟩, ["AB12CDE"], (0 : Nat)⟩ : MigAcc).seen ∧
      (migrateStep "T" ⟨⟨false, [], 0, [], 0⟩, ["AB12CDE"], 0⟩
          { registration := some "cd 34fgh", url := some "u" }).migrated =
        (⟨⟨false, [], 0, [], 0⟩, ["AB12CDE"], (0 : Nat)⟩ : MigAcc).migrated + 1 :=
  ⟨(C1_migration_entry_behavior "T" ⟨⟨false, [], 0, [], 0⟩, ["AB12CDE"], 0⟩
      { registration := some "ab 12cde" }).1 (by decide),
   (C1_migration_entry_behavior "T" ⟨⟨false, [], 0, [], 0⟩, ["AB12CDE"], 0⟩
      { registration := some "cd 34fgh", url := some "u" }).2 (by decide)⟩

/-- Inputs refuting the original C1: a log entry that carries its own
timestamp, migrated at a later wall-clock time. -/
def cexMigLog : LogEntry :=
  { registration := some "AB12CDE", url := some "u",
    timestamp := some "2020-01-01T00:00:00.000Z" }

/-- Refutation of C1 as stated: for the entry `cexMigLog` (which is not
skipped) the record that ends up in the Store does **not** carry the log's
timestamp — `CarStorage.save` stamps the insert with the migration time
instead. -/
theorem C1_migration_entry_behavior_counterexample :
    ¬ ∃ i : Nat,
        CarStorage.getAll
            (migrateStep "2021-06-01T00:00:00.000Z" ⟨⟨false, [], 0, [], 0⟩, [], 0⟩ cexMigLog).store =
          CarStorage.getAll (⟨false, [], 0, [], 0⟩ : CarStore) ++
            [{ id := some i, registration := some "AB12CDE", websiteLink := some "u",
               timestamp := some (cexMigLog.timestamp.getD "2021-06-01T00:00:00.000Z") }] := by
  rintro ⟨i, h⟩
  have h1 : CarStorage.getAll
      (migrateStep "2021-06-01T00:00:00.000Z" ⟨⟨false, [], 0, [], 0⟩, [], 0⟩ cexMigLog).store =
      [{ id := some 1, registration := some "AB12CDE", websiteLink := some "u",
         timestamp := some "2021-06-01T00:00:00.000Z" }] := by decide
  have h2 : CarStorage.getAll (⟨false, [], 0, [], 0⟩ : CarStore) = [] := rfl
  rw [h1, h2, List.nil_append] at h
  have h3 := congrArg (fun l => l.map Car.timestamp) h
  simp only [List.map_cons, List.map_nil, List.cons.injEq, and_true] at h3
  exact absurd h3 (by decide)

/-! ## Claim C3 — idempotence of the migration routine -/

/-- **C3**: running the migration routine twice in a row (at any two times)
yields the same application state — in particular the same record set — as
running it once. -/
theorem C3_migration_idempotent (nowA nowB : String) (s : AppState) :
    migrateLogsToCars nowB (migrateLogsToCars nowA s) = migrateLogsToCars nowA s := by
  obtain ⟨cs, logs⟩ := s
  by_cases hl : logs = []
  · have h1 : migrateLogsToCars nowA ⟨cs, logs⟩ = ⟨cs, logs⟩ := by
      rw [migrateLogsToCars_eq]
      exact if_pos hl
    rw [h1, migrateLogsToCars_eq]
    exact if_pos hl
  · by_cases hm : 0 < (migrateAcc nowA ⟨cs, logs⟩).migrated
    · have h1 : migrateLogsToCars nowA ⟨cs, logs⟩ = ⟨(migrateAcc nowA ⟨cs, logs⟩).store, []⟩ := by
        rw [migrateLogsToCars_eq, if_neg hl, if_pos hm]
      rw [h1, migrateLogsToCars_eq]
      exact if_pos rfl
    · have hm0 : (migrateAcc nowA ⟨cs, logs⟩).migrated = 0 := by omega
      obtain ⟨heq, hall⟩ := migrateAcc_stationary nowA ⟨cs, logs⟩ hm0
      have h1 : migrateLogsToCars nowA ⟨cs, logs⟩ = ⟨cs, logs⟩ := by
        rw [migrateLogsToCars_eq, if_neg hl, if_neg hm, heq]
      rw [h1]
      have h2 : migrateAcc nowB ⟨cs, logs⟩ = ⟨cs, seenInit ⟨cs, logs⟩, 0⟩ :=
        migrateAcc_all_skip nowB ⟨cs, logs⟩ hall
      rw [migrateLogsToCars_eq, if_neg hl, h2]
      simp

/-! ## Claim C7 — empty-log no-op, clear-iff-created, and the seed scenario -/

/-- **C7**: with no legacy logs the migration routine is an exact no-op; with
a non-empty log collection the legacy-log collection ends up cleared iff the
record collection grew (at least one record was created); and seeding with
the single log `{registration: "AB12CDE", url: "http://x"}` over empty records
yields exactly one record with that registration and websiteLink, and an empty
log collection. -/
theorem C7_migration_noop_and_clear (now : String) (s : AppState) :
    (s.logs = [] → migrateLogsToCars now s = s) ∧
    (s.logs ≠ [] →
      ((migrateLogsToCars now s).logs = [] ↔
        (CarStorage.getAll s.carStore).length <
          (CarStorage.getAll (migrateLogsToCars now s).carStore).length)) ∧
    migrateLogsToCars now
        ⟨⟨false, [], 0, [], 0⟩, [{ registration := some "AB12CDE", url := some "http://x" }]⟩ =
      ⟨⟨false,
        [{ id := some 1, registration := some "AB12CDE", websiteLink := some "http://x",
           timestamp := some now }], 1, [], 0⟩, []⟩ := by
  refine ⟨fun h => by rw [migrateLogsToCars_eq]; exact if_pos h, fun hl => ?_, ?_⟩
  · have hlen := migrateAcc_length now s
    by_cases hm : 0 < (migrateAcc now s).migrated
    · have h1 : migrateLogsToCars now s = ⟨(migrateAcc now s).store, []⟩ := by
        rw [migrateLogsToCars_eq, if_neg hl, if_pos hm]
      rw [h1]
      simp only [true_iff]
      omega
    · have hm0 : (migrateAcc now s).migrated = 0 := by omega
      obtain ⟨heq, _⟩ := migrateAcc_stationary now s hm0
      have h1 : migrateLogsToCars now s = ⟨s.carStore, s.logs⟩ := by
        rw [migrateLogsToCars_eq, if_neg hl, if_neg hm, heq]
      rw [h1]
      simp only []
      constructor
      · intro h
        exact absurd h hl
      · intro h
        rw [heq] at hlen
        simp at hlen
        omega
  · rfl

/-! ## Update-branch lemmas for `CarStorage.save` -/

theorem save_some_primary (now : String) (car : Car) (s : CarStore) (i : Nat)
    (h : car.id = some (i + 1)) (hpf : s.primaryFails = false) :
    CarStorage.save now car s = ({ s with idbCars := putById s.idbCars (i + 1) car }, i + 1) := by
  unfold CarStorage.save
  rw [h, hpf]
  simp

theorem getAll_save_some_primary (now : String) (car : Car) (s : CarStore) (i : Nat)
    (h : car.id = some (i + 1)) (hpf : s.primaryFails = false) :
    CarStorage.getAll (CarStorage.save now car s).1 = putById s.idbCars (i + 1) car := by
  rw [save_some_primary now car s i h hpf]
  simp [CarStorage.getAll, hpf]

/-- The object handed to `put` is in the resulting collection (either
replacing the entry with its key or appended). -/
theorem mem_putById (l : List Car) (i : Nat) (car : Car) : car ∈ putById l i car := by
  unfold putById
  split
  · rename_i h
    rw [List.any_eq_true] at h
    obtain ⟨c, hc, hce⟩ := h
    refine List.mem_map.mpr ⟨c, hc, ?_⟩
    rw [if_pos (by simpa using hce)]
  · exact List.mem_append_right _ (List.mem_singleton.mpr rfl)

/-! ## Claim C2 — getAll never fails; fallback transparency of save+getAll -/

/-- **C2**: when the primary engine fails, `getAll` returns the fallback
medium's contents (possibly empty) instead of throwing; saving an id-less
entity in that mode and reading back appends exactly the saved entity, just as
the primary-engine path does, and the two persisted entities differ only in
their identifier (stripping `id` makes them equal). -/
theorem C2_getAll_fallback_transparency (s p : CarStore) (car : Car) (now : String)
    (hf : s.primaryFails = true) (hp : p.primaryFails = false) (hid : car.id = none) :
    CarStorage.getAll s = s.lsCars ∧
    CarStorage.getAll (CarStorage.save now car s).1 =
      s.lsCars ++ [{ car with id := some (s.clock + 1), timestamp := some now }] ∧
    CarStorage.getAll (CarStorage.save now car p).1 =
      CarStorage.getAll p ++ [{ car with id := some (p.idbNextId + 1), timestamp := some now }] ∧
    ({ ({ car with id := some (s.clock + 1), timestamp := some now } : Car) with id := none } : Car) =
      { ({ car with id := some (p.idbNextId + 1), timestamp := some now } : Car) with id := none } := by
  refine ⟨by simp [CarStorage.getAll, hf], ?_, ?_, rfl⟩
  · rw [save_none_fallback now car s hid hf]
    simp [CarStorage.getAll, hf]
  · rw [save_none_primary now car p hid hp]
    simp [CarStorage.getAll, hp]

theorem C2_getAll_fallback_transparency_witness :
    CarStorage.getAll ⟨true, [], 0, [], 5⟩ = (⟨true, [], 0, [], 5⟩ : CarStore).lsCars ∧
    CarStorage.getAll
        (CarStorage.save "T" { registration := some "AB12CDE" } ⟨true, [], 0, [], 5⟩).1 =
      (⟨true, [], 0, [], 5⟩ : CarStore).lsCars ++
        [{ ({ registration := some "AB12CDE" } : Car) with id := some 6, timestamp := some "T" }] ∧
    CarStorage.getAll
        (CarStorage.save "T" { registration := some "AB12CDE" } ⟨false, [], 3, [], 0⟩).1 =
      CarStorage.getAll ⟨false, [], 3, [], 0⟩ ++
        [{ ({ registration := some "AB12CDE" } : Car) with id := some 4, timestamp := some "T" }] ∧
    ({ ({ ({ registration := some "AB12CDE" } : Car) with id := some 6, timestamp := some "T" } : Car)
        with id := none } : Car) =
      { ({ ({ registration := some "AB12CDE" } : Car) with id := some 4, timestamp := some "T" } : Car)
        with id := none } :=
  C2_getAll_fallback_transparency ⟨true, [], 0, [], 5⟩ ⟨false, [], 3, [], 0⟩
    { registration := some "AB12CDE" } "T" rfl rfl rfl

/-! ## Claim C9 — editing preserves timestamp / starred / flagged -/

/-- **C9**: saving an edited version of a record that already carries a
(truthy) identifier stores a record whose `timestamp`, `starred` and `flagged`
are the existing record's values — the update branch of `save` never restamps
`timestamp` — while every other field takes the edited form value; and the
timestamp is stamped exactly at first save: saving an id-less record appends
it with `timestamp := now`. -/
theorem C9_edit_preserves_metadata (now : String) (editingId : Nat) (allCars : List Car)
    (form : Car) (s : CarStore) (existing : Car)
    (hpf : s.primaryFails = false)
    (hfind : allCars.find? (fun c => c.id == some (editingId + 1)) = some existing) :
    ({ formCar form with
        id := some (editingId + 1), timestamp := existing.timestamp,
        starred := existing.starred, flagged := existing.flagged } : Car) ∈
      CarStorage.getAll (saveEditedCar now (editingId + 1) allCars form s).1 ∧
    (∀ (c : Car), c.id = none → ∀ (now2 : String) (s2 : CarStore),
      CarStorage.getAll (CarStorage.save now2 c s2).1 =
        CarStorage.getAll s2 ++
          [{ c with id := some ((CarStorage.save now2 c s2).2), timestamp := some now2 }]) := by
  constructor
  · simp only [saveEditedCar]
    rw [hfind]
    rw [getAll_save_some_primary now _ s editingId rfl hpf]
    exact mem_putById s.idbCars (editingId + 1) _
  · intro c hc now2 s2
    exact getAll_save_none now2 c s2 hc

/-- Concrete inputs for the C9 witness: an existing stored record, an edited
form, and the store holding the record. -/
def wEditExisting : Car :=
  { id := some 1, registration := some "OLD", starred := true, timestamp := some "T0" }

def wEditForm : Car := { registration := some "NEW", price := some 5 }

def wEditStore : CarStore := ⟨false, [wEditExisting], 1, [], 0⟩

theorem C9_edit_preserves_metadata_witness :
    ({ formCar wEditForm with
        id := some 1, timestamp := wEditExisting.timestamp,
        starred := wEditExisting.starred, flagged := wEditExisting.flagged } : Car) ∈
      CarStorage.getAll (saveEditedCar "T2" 1 [wEditExisting] wEditForm wEditStore).1 ∧
    (∀ (c : Car), c.id = none → ∀ (now2 : String) (s2 : CarStore),
      CarStorage.getAll (CarStorage.save now2 c s2).1 =
        CarStorage.getAll s2 ++
          [{ c with id := some ((CarStorage.save now2 c s2).2), timestamp := some now2 }]) :=
  C9_edit_preserves_metadata "T2" 0 [wEditExisting] wEditForm wEditStore wEditExisting
    rfl (by decide)

theorem C7_migration_noop_and_clear_witness :
    (migrateLogsToCars "T" ⟨⟨false, [], 0, [], 0⟩, []⟩ = ⟨⟨false, [], 0, [], 0⟩, []⟩) ∧
    ((migrateLogsToCars "T" ⟨⟨false, [], 0, [], 0⟩, [{ registration := some "CD34FGH" }]⟩).logs = [] ↔
      (CarStorage.getAll (⟨⟨false, [], 0, [], 0⟩,
          [{ registration := some "CD34FGH" }]⟩ : AppState).carStore).length <
        (CarStorage.getAll (migrateLogsToCars "T"
          ⟨⟨false, [], 0, [], 0⟩, [{ registration := some "CD34FGH" }]⟩).carStore).length) :=
  ⟨(C7_migration_noop_and_clear "T" ⟨⟨false, [], 0, [], 0⟩, []⟩).1 rfl,
   (C7_migration_noop_and_clear "T"
      ⟨⟨false, [], 0, [], 0⟩, [{ registration := some "CD34FGH" }]⟩).2.1 (by decide)⟩

/-! ## Claim C4 — search and filter semantics (corrected) -/

/-- The search condition as the spec words it (term found in the registration,
spec, comments, contact, or the string form of the rating): used to exhibit
the divergence of the code at rating `0`. -/
def specSearchHitOrig (term : String) (c : Car) : Prop :=
  (∃ s, c.registration = some s ∧ lowerData term <:+: lowerData s) ∨
  (∃ s, c.spec = some s ∧ lowerData term <:+: lowerData s) ∨
  (∃ s, c.comments = some s ∧ lowerData term <:+: lowerData s) ∨
  (∃ s, c.contact = some s ∧ lowerData term <:+: lowerData s) ∨
  (∃ r, c.rating = some r ∧ lowerData term <:+: (toString r).data)

/-- The search condition the code implements: as the spec words it, except
that the rating contributes only when present **and non-zero** (JS truthiness
of `car.rating`). -/
def specSearchHit (term : String) (c : Car) : Prop :=
  (∃ s, c.registration = some s ∧ lowerData term <:+: lowerData s) ∨
  (∃ s, c.spec = some s ∧ lowerData term <:+: lowerData s) ∨
  (∃ s, c.comments = some s ∧ lowerData term <:+: lowerData s) ∨
  (∃ s, c.contact = some s ∧ lowerData term <:+: lowerData s) ∨
  (∃ r, c.rating = some r ∧ r ≠ 0 ∧ lowerData term <:+: (toString r).data)

theorem strFieldHit_iff (f : Option String) (term : String) (ht : term ≠ "") :
    strFieldHit f term = true ↔ ∃ s, f = some s ∧ lowerData term <:+: lowerData s := by
  cases f with
  | none => simp [strFieldHit]
  | some s =>
    simp only [strFieldHit, Bool.and_eq_true, bne_iff_ne, ne_eq, decide_eq_true_eq,
      Option.some.injEq]
    constructor
    · rintro ⟨_, hinf⟩
      exact ⟨s, rfl, hinf⟩
    · rintro ⟨s', hs', hinf⟩
      subst hs'
      refine ⟨?_, hinf⟩
      intro h0
      subst h0
      have h1 : lowerData term = [] := List.eq_nil_of_infix_nil hinf
      have h2 : term.data = [] := List.eq_nil_of_map_eq_nil h1
      apply ht
      cases term with
      | mk data =>
        simp at h2
        simp [h2]

theorem ratingHit_iff (r? : Option Nat) (term : String) :
    ratingHit r? term = true ↔
      ∃ r, r? = some r ∧ r ≠ 0 ∧ lowerData term <:+: (toString r).data := by
  cases r? with
  | none => simp [ratingHit]
  | some r => simp [ratingHit]

theorem searchMatch_iff (term : String) (c : Car) (ht : term ≠ "") :
    searchMatch term c = true ↔ specSearchHit term c := by
  simp only [searchMatch, Bool.or_eq_true, strFieldHit_iff _ _ ht, ratingHit_iff]
  unfold specSearchHit
  simp only [or_assoc]

theorem mem_filter_ite {p : Car → Bool} {P : Prop} [Decidable P] {l : List Car} {c : Car} :
    (c ∈ if P then l.filter p else l) ↔ c ∈ l ∧ (P → p c = true) := by
  by_cases h : P
  · simp [h, List.mem_filter]
  · simp [h]

theorem starFilter_iff (st : String) (b : Bool)
    (hstar : st = "all" ∨ st = "starred" ∨ st = "unstarred") :
    (st ≠ "all" → (if st = "starred" then b else !b) = true) ↔
      (st = "all" ∨ (st = "starred" ∧ b = true) ∨ (st = "unstarred" ∧ b = false)) := by
  rcases hstar with h | h | h <;> subst h <;>
    simp [show ("starred" : String) ≠ "all" from by decide,
      show ("starred" : String) ≠ "unstarred" from by decide,
      show ("unstarred" : String) ≠ "all" from by decide,
      show ("unstarred" : String) ≠ "starred" from by decide]

theorem flagFilter_iff (fl : String) (b : Bool)
    (hflag : fl = "all" ∨ fl = "flagged" ∨ fl = "unflagged") :
    (fl ≠ "all" → (if fl = "flagged" then b else !b) = true) ↔
      (fl = "all" ∨ (fl = "flagged" ∧ b = true) ∨ (fl = "unflagged" ∧ b = false)) := by
  rcases hflag with h | h | h <;> subst h <;>
    simp [show ("flagged" : String) ≠ "all" from by decide,
      show ("flagged" : String) ≠ "unflagged" from by decide,
      show ("unflagged" : String) ≠ "all" from by decide,
      show ("unflagged" : String) ≠ "flagged" from by decide]

theorem exactFilter_iff (v : String) (f : Option String) :
    (v ≠ "all" → (f == some v) = true) ↔ (v = "all" ∨ f = some v) := by
  by_cases h : v = "all" <;> simp [h, beq_iff_eq]

set_option maxHeartbeats 1000000 in
/-- **C4** (amended).  A record appears in the query output iff it is in the
input and: the term is empty, or a case-insensitive substring of the
registration, spec, comments, contact, or the digits of a present *non-zero*
rating (a zero rating is falsy in JS and never searched); and every filter
passes, a filter set to `all` being a no-op, star/flag filters testing the
booleans and transmission/fuelType being exact matches. -/
theorem C4_search_filter_membership (filters : Filters) (cars : List Car)
    (term : String) (c : Car)
    (hstar : filters.star = "all" ∨ filters.star = "starred" ∨ filters.star = "unstarred")
    (hflag : filters.flag = "all" ∨ filters.flag = "flagged" ∨ filters.flag = "unflagged") :
    c ∈ applySearchAndFilters filters cars term ↔
      c ∈ cars ∧
      (term = "" ∨ specSearchHit term c) ∧
      (filters.star = "all" ∨ (filters.star = "starred" ∧ c.starred = true) ∨
        (filters.star = "unstarred" ∧ c.starred = false)) ∧
      (filters.flag = "all" ∨ (filters.flag = "flagged" ∧ c.flagged = true) ∨
        (filters.flag = "unflagged" ∧ c.flagged = false)) ∧
      (filters.transmission = "all" ∨ c.transmission = some filters.transmission) ∧
      (filters.fuelType = "all" ∨ c.fuelType = some filters.fuelType) := by
  have h5 : (c ∈ applySearchAndFilters filters cars term) ↔
      ((((c ∈ cars ∧ (term ≠ "" → searchMatch term c = true)) ∧
         (filters.star ≠ "all" →
           (if filters.star = "starred" then c.starred else !c.starred) = true)) ∧
        (filters.flag ≠ "all" →
          (if filters.flag = "flagged" then c.flagged else !c.flagged) = true)) ∧
       (filters.transmission ≠ "all" → (c.transmission == some filters.transmission) = true)) ∧
      (filters.fuelType ≠ "all" → (c.fuelType == some filters.fuelType) = true) := by
    simp only [applySearchAndFilters]
    rw [mem_filter_ite, mem_filter_ite, mem_filter_ite, mem_filter_ite, mem_filter_ite]
  have hsearch : (term ≠ "" → searchMatch term c = true) ↔ (term = "" ∨ specSearchHit term c) := by
    by_cases ht : term = ""
    · simp [ht]
    · simp only [ht, false_or]
      constructor
      · intro h
        exact (searchMatch_iff term c ht).mp (h ht)
      · intro h _
        exact (searchMatch_iff term c ht).mpr h
  rw [h5, hsearch, starFilter_iff filters.star c.starred hstar,
    flagFilter_iff filters.flag c.flagged hflag,
    exactFilter_iff filters.transmission c.transmission,
    exactFilter_iff filters.fuelType c.fuelType]
  simp only [and_assoc]

/-- The spec scenario for the C4 witness: term `"red"` with `fuelType=Petrol`. -/
def wPetrolRed : Car := { spec := some "Red leather", fuelType := some "Petrol" }

theorem C4_search_filter_membership_witness :
    wPetrolRed ∈ applySearchAndFilters { fuelType := "Petrol" }
        [wPetrolRed, { spec := some "red trim", fuelType := some "Diesel" }] "RED" ↔
      wPetrolRed ∈ [wPetrolRed, ({ spec := some "red trim", fuelType := some "Diesel" } : Car)] ∧
      ("RED" = "" ∨ specSearchHit "RED" wPetrolRed) ∧
      (("all" : String) = "all" ∨ (("all" : String) = "starred" ∧ wPetrolRed.starred = true) ∨
        (("all" : String) = "unstarred" ∧ wPetrolRed.starred = false)) ∧
      (("all" : String) = "all" ∨ (("all" : String) = "flagged" ∧ wPetrolRed.flagged = true) ∨
        (("all" : String) = "unflagged" ∧ wPetrolRed.flagged = false)) ∧
      (("all" : String) = "all" ∨ wPetrolRed.transmission = some "all") ∧
      (("Petrol" : String) = "all" ∨ wPetrolRed.fuelType = some "Petrol") :=
  C4_search_filter_membership { fuelType := "Petrol" }
    [wPetrolRed, { spec := some "red trim", fuelType := some "Diesel" }] "RED" wPetrolRed
    (Or.inl rfl) (Or.inl rfl)

/-- Refutation of C4 as stated: a record whose rating is `0` and search term
`"0"` — the spec-worded condition holds (the string form `"0"` of the rating
contains the term) and every filter is `all`, yet the code's output omits the
record, because `car.rating` is falsy. -/
theorem C4_search_filter_membership_counterexample :
    (({ rating := some 0 } : Car) ∈ [({ rating := some 0 } : Car)]) ∧
    specSearchHitOrig "0" { rating := some 0 } ∧
    ({ rating := some 0 } : Car) ∉ applySearchAndFilters {} [{ rating := some 0 }] "0" := by
  refine ⟨by decide, ?_, by decide⟩
  exact Or.inr (Or.inr (Or.inr (Or.inr ⟨0, rfl, by decide⟩)))

/-! ## Import lemmas -/

/-- The skip condition of the import loop: non-empty normalized registration
already seen. -/
def impSkip (seen : List String) (car : Car) : Prop :=
  normalizeRegistration (car.registration.getD "") ≠ "" ∧
  normalizeRegistration (car.registration.getD "") ∈ seen

instance (seen : List String) (car : Car) : Decidable (impSkip seen car) := by
  unfold impSkip
  infer_instance

theorem importStep_skip (now : String) (acc : ImportAcc) (car : Car)
    (h : impSkip acc.seen car) :
    importStep now acc car = { acc with skipped := acc.skipped + 1 } := by
  unfold importStep
  unfold impSkip at h
  rw [if_pos h]

theorem importStep_not_skip (now : String) (acc : ImportAcc) (car : Car)
    (h : ¬ impSkip acc.seen car) :
    importStep now acc car =
      { store := (CarStorage.save now
          { car with id := none, timestamp := some (car.timestamp.getD now) } acc.store).1,
        seen := if normalizeRegistration (car.registration.getD "") ≠ ""
          then normalizeRegistration (car.registration.getD "") :: acc.seen else acc.seen,
        imported := acc.imported + 1,
        skipped := acc.skipped } := by
  unfold importStep
  unfold impSkip at h
  rw [if_neg h]

/-- Each import iteration accounts every record once and grows the store by
one record per imported record. -/
theorem importStep_counts (now : String) (acc : ImportAcc) (car : Car) :
    (importStep now acc car).imported + (importStep now acc car).skipped =
      acc.imported + acc.skipped + 1 ∧
    (CarStorage.getAll (importStep now acc car).store).length + acc.imported =
      (CarStorage.getAll acc.store).length + (importStep now acc car).imported := by
  by_cases h : impSkip acc.seen car
  · rw [importStep_skip now acc car h]
    exact ⟨rfl, rfl⟩
  · rw [importStep_not_skip now acc car h]
    have hg := getAll_save_none now
      { car with id := none, timestamp := some (car.timestamp.getD now) } acc.store rfl
    constructor
    · show acc.imported + 1 + acc.skipped = acc.imported + acc.skipped + 1
      omega
    · show (CarStorage.getAll (CarStorage.save now
          { car with id := none, timestamp := some (car.timestamp.getD now) } acc.store).1).length
          + acc.imported =
        (CarStorage.getAll acc.store).length + (acc.imported + 1)
      rw [hg, List.length_append]
      simp only [List.length_singleton]
      omega

theorem importFold_counts (now : String) :
    ∀ (cs : List Car) (acc : ImportAcc),
      (cs.foldl (importStep now) acc).imported + (cs.foldl (importStep now) acc).skipped =
        acc.imported + acc.skipped + cs.length ∧
      (CarStorage.getAll (cs.foldl (importStep now) acc).store).length + acc.imported =
        (CarStorage.getAll acc.store).length + (cs.foldl (importStep now) acc).imported := by
  intro cs
  induction cs with
  | nil => intro acc; exact ⟨rfl, rfl⟩
  | cons c cs ih =>
    intro acc
    rw [List.foldl_cons]
    obtain ⟨h1, h2⟩ := importStep_counts now acc c
    obtain ⟨h3, h4⟩ := ih (importStep now acc c)
    constructor
    · rw [h3]
      simp only [List.length_cons]
      omega
    · omega

/-- The seen-set `importData` starts from: the normalized registrations of the
current collection. -/
def seenOf (s : CarStore) : List String :=
  (CarStorage.getAll s).map (fun c => normalizeRegistration (c.registration.getD ""))

theorem importData_some (now : String) (p : ImportPayload) (s : CarStore) (cs : List Car)
    (hp : p.cars = some cs) :
    importData now p s =
      ((cs.foldl (importStep now) ⟨s, seenOf s, 0, 0⟩).store,
       some ((cs.foldl (importStep now) ⟨s, seenOf s, 0, 0⟩).imported,
             (cs.foldl (importStep now) ⟨s, seenOf s, 0, 0⟩).skipped)) := by
  unfold importData
  rw [hp]
  rfl

theorem importData_none (now : String) (p : ImportPayload) (s : CarStore)
    (hp : p.cars = none) : importData now p s = (s, none) := by
  unfold importData
  rw [hp]

/-! ## Claim C6 — import validation, id-stripping, dedup and counts -/

/-- **C6**: a payload without the top-level cars array fails with the
invalid-format outcome and leaves the store untouched; each incoming record is
processed with its `id` ignored (stripping it does not change the step), a
record whose non-empty normalized registration is already seen (from the
current collection or earlier in the batch) is skipped with only the skip
counter moving, a record with a missing timestamp is persisted with
`timestamp = now`, and the final report accounts every record exactly once,
the store growing by exactly the imported count. -/
theorem C6_import_validation_and_counts :
    (∀ (now : String) (p : ImportPayload) (s : CarStore), p.cars = none →
      importData now p s = (s, none)) ∧
    (∀ (now : String) (acc : ImportAcc) (car : Car),
      (impSkip acc.seen car →
        importStep now acc car = { acc with skipped := acc.skipped + 1 }) ∧
      (∀ v : Option Nat, importStep now acc car = importStep now acc { car with id := v }) ∧
      (¬ impSkip acc.seen car → car.timestamp = none →
        ∃ i, CarStorage.getAll (importStep now acc car).store =
          CarStorage.getAll acc.store ++ [{ car with id := some i, timestamp := some now }])) ∧
    (∀ (now : String) (p : ImportPayload) (s : CarStore) (cs : List Car), p.cars = some cs →
      ∃ imp skp, (importData now p s).2 = some (imp, skp) ∧ imp + skp = cs.length ∧
        (CarStorage.getAll (importData now p s).1).length =
          (CarStorage.getAll s).length + imp) := by
  refine ⟨fun now p s hp => importData_none now p s hp, fun now acc car => ⟨?_, ?_, ?_⟩, ?_⟩
  · exact importStep_skip now acc car
  · intro v
    rfl
  · intro h _ht
    rw [importStep_not_skip now acc car h]
    refine ⟨(CarStorage.save now
      { car with id := none, timestamp := some (car.timestamp.getD now) } acc.store).2, ?_⟩
    show CarStorage.getAll (CarStorage.save now _ acc.store).1 = _
    rw [getAll_save_none now
      { car with id := none, timestamp := some (car.timestamp.getD now) } acc.store rfl]
  · intro now p s cs hp
    rw [importData_some now p s cs hp]
    obtain ⟨h1, h2⟩ := importFold_counts now cs ⟨s, seenOf s, 0, 0⟩
    exact ⟨_, _, rfl, by simpa using h1, by simpa using h2⟩

/-- Concrete inputs for the C6 witness. -/
def wStore6 : CarStore := ⟨false, [{ id := some 1, registration := some "AB12CDE" }], 1, [], 0⟩

def wAcc6 : ImportAcc := ⟨wStore6, ["AB12CDE"], 0, 0⟩

def wDupCar : Car := { id := some 7, registration := some "ab 12 cde" }

def wNewCar : Car := { id := some 9, registration := some "CD34FGH" }

theorem C6_import_validation_and_counts_witness :
    (importData "T" { version := some "1.0", exportDate := some "E" } wStore6 =
      (wStore6, none)) ∧
    (importStep "T" wAcc6 wDupCar = { wAcc6 with skipped := wAcc6.skipped + 1 }) ∧
    (importStep "T" wAcc6 wNewCar = importStep "T" wAcc6 { wNewCar with id := none }) ∧
    (∃ i, CarStorage.getAll (importStep "T" wAcc6 wNewCar).store =
      CarStorage.getAll wAcc6.store ++ [{ wNewCar with id := some i, timestamp := some "T" }]) ∧
    (∃ imp skp,
      (importData "T" { cars := some [wDupCar, wNewCar] } wStore6).2 = some (imp, skp) ∧
      imp + skp = [wDupCar, wNewCar].length ∧
      (CarStorage.getAll (importData "T" { cars := some [wDupCar, wNewCar] } wStore6).1).length =
        (CarStorage.getAll wStore6).length + imp) :=
  ⟨C6_import_validation_and_counts.1 "T" { version := some "1.0", exportDate := some "E" }
      wStore6 rfl,
   (C6_import_validation_and_counts.2.1 "T" wAcc6 wDupCar).1 (by decide),
   (C6_import_validation_and_counts.2.1 "T" wAcc6 wNewCar).2.1 none,
   (C6_import_validation_and_counts.2.1 "T" wAcc6 wNewCar).2.2 (by decide) rfl,
   C6_import_validation_and_counts.2.2 "T" { cars := some [wDupCar, wNewCar] } wStore6
     [wDupCar, wNewCar] rfl⟩

/-! ## Claim C5 — export/import round-trip (corrected) -/

/-- The seen-set after folding the registrations of a batch into `seen`. -/
def regAcc (seen : List String) (cs : List Car) : List String :=
  cs.foldl (fun s c =>
    if normalizeRegistration (c.registration.getD "") ≠ ""
    then normalizeRegistration (c.registration.getD "") :: s else s) seen

/-- When no incoming registration is empty-colliding or already seen,
the import loop appends every record in order, stamping fresh sequential
ids and the import-time timestamp. -/
theorem importFold_no_skips (now : String) :
    ∀ (cs : List Car) (st : CarStore) (seen : List String) (imp skp : Nat),
      st.primaryFails = false →
      (∀ c ∈ cs, normalizeRegistration (c.registration.getD "") ≠ "" →
        normalizeRegistration (c.registration.getD "") ∉ seen) →
      ((cs.map (fun c => normalizeRegistration (c.registration.getD ""))).Pairwise
        (fun x y => x = "" ∨ x ≠ y)) →
      cs.foldl (importStep now) ⟨st, seen, imp, skp⟩ =
        ⟨⟨false, st.idbCars ++ stampFrom st.idbNextId now cs, st.idbNextId + cs.length,
          st.lsCars, st.clock⟩,
         regAcc seen cs, imp + cs.length, skp⟩ := by
  intro cs
  induction cs with
  | nil =>
    intro st seen imp skp hpf _ _
    rcases st with ⟨pf, idb, nid, lsc, ck⟩
    simp only at hpf
    subst hpf
    simp [stampFrom, regAcc]
  | cons c cs ih =>
    intro st seen imp skp hpf hdisj hpw
    rw [List.foldl_cons]
    have hnskip : ¬ impSkip seen c := by
      unfold impSkip
      intro ⟨hne, hmem⟩
      exact hdisj c (by simp) hne hmem
    rw [importStep_not_skip now ⟨st, seen, imp, skp⟩ c hnskip]
    simp only [List.map_cons, List.pairwise_cons] at hpw
    obtain ⟨hc, hpw'⟩ := hpw
    have hsave := save_none_primary now
      { c with id := none, timestamp := some (c.timestamp.getD now) } st rfl hpf
    rw [hsave]
    have hdisj' : ∀ c' ∈ cs, normalizeRegistration (c'.registration.getD "") ≠ "" →
        normalizeRegistration (c'.registration.getD "") ∉
          (if normalizeRegistration (c.registration.getD "") ≠ ""
           then normalizeRegistration (c.registration.getD "") :: seen else seen) := by
      intro c' hc' hne
      by_cases hr : normalizeRegistration (c.registration.getD "") = ""
      · rw [if_neg (not_not_intro hr)]
        exact hdisj c' (by simp [hc']) hne
      · rw [if_pos hr]
        intro hmem
        rcases List.mem_cons.mp hmem with h | h
        · rcases hc _ (List.mem_map_of_mem _ hc') with h2 | h2
          · exact hr h2
          · exact h2 (h ▸ rfl)
        · exact hdisj c' (by simp [hc']) hne h
    have hih := ih ({ st with
        idbCars := st.idbCars ++
          [{ c with id := some (st.idbNextId + 1), timestamp := some now }],
        idbNextId := st.idbNextId + 1 })
      (if normalizeRegistration (c.registration.getD "") ≠ ""
       then normalizeRegistration (c.registration.getD "") :: seen else seen)
      (imp + 1) skp hpf hdisj' hpw'
    rw [hih]
    simp [stampFrom, regAcc, List.append_assoc, Nat.add_comm, Nat.add_left_comm, Nat.add_assoc]

/-- **C5** (amended).  For every source store whose records' non-empty
normalized registrations are pairwise distinct, importing the output of
export into an empty store reproduces the record set in order, with every
field preserved **except** the identifiers (freshly assigned, sequential) and
the timestamps, which are all reset to the import time — `CarStorage.save`
restamps every id-stripped record on insert.  (Records sharing a non-empty
normalized registration would additionally be skipped as duplicates, hence
the hypothesis.) -/
theorem C5_export_import_roundtrip (now expNow : String) (src : CarStore)
    (n0 clk : Nat) (ls : List Car)
    (hpw : ((CarStorage.getAll src).map
        (fun c => normalizeRegistration (c.registration.getD ""))).Pairwise
      (fun x y => x = "" ∨ x ≠ y)) :
    importData now (exportData expNow src) ⟨false, [], n0, ls, clk⟩ =
      (⟨false, stampFrom n0 now (CarStorage.getAll src),
        n0 + (CarStorage.getAll src).length, ls, clk⟩,
       some ((CarStorage.getAll src).length, 0)) := by
  rw [importData_some now (exportData expNow src) ⟨false, [], n0, ls, clk⟩
    (CarStorage.getAll src) rfl]
  have hseen : seenOf ⟨false, [], n0, ls, clk⟩ = [] := rfl
  rw [hseen]
  rw [importFold_no_skips now (CarStorage.getAll src) ⟨false, [], n0, ls, clk⟩ [] 0 0 rfl
    (by simp) hpw]
  simp [regAcc]

/-- Concrete inputs for the C5 witness: two records with distinct
registrations. -/
def wSrc5 : CarStore := ⟨false,
  [{ id := some 1, registration := some "AB12CDE", price := some 5, timestamp := some "T0" },
   { id := some 2, registration := some "CD34FGH", timestamp := some "T0" }], 2, [], 0⟩

theorem C5_export_import_roundtrip_witness :
    importData "T1" (exportData "E" wSrc5) ⟨false, [], 0, [], 0⟩ =
      (⟨false, stampFrom 0 "T1" (CarStorage.getAll wSrc5),
        0 + (CarStorage.getAll wSrc5).length, [], 0⟩,
       some ((CarStorage.getAll wSrc5).length, 0)) :=
  C5_export_import_roundtrip "T1" "E" wSrc5 0 0 [] (by decide)

/-- Source store refuting C5 as stated: two records share a normalized
registration (the storage layer does not enforce uniqueness). -/
def cexSrc5 : CarStore := ⟨false,
  [{ id := some 1, registration := some "AB12CDE", timestamp := some "2020-01-01" },
   { id := some 2, registration := some "AB12CDE", timestamp := some "2020-01-01" }], 2, [], 0⟩

/-- Refutation of C5 as stated: the round-trip of `cexSrc5` into an empty
store keeps only one of the two records (the duplicate registration is
skipped) and its timestamp is the import time, not the exported value — the
record set is not reproduced and field values are not all preserved. -/
theorem C5_export_import_roundtrip_counterexample :
    (CarStorage.getAll cexSrc5).length = 2 ∧
    (CarStorage.getAll
        (importData "2021-05-05" (exportData "E" cexSrc5) ⟨false, [], 0, [], 0⟩).1).length = 1 ∧
    (CarStorage.getAll
        (importData "2021-05-05" (exportData "E" cexSrc5) ⟨false, [], 0, [], 0⟩).1).map
      Car.timestamp = [some "2021-05-05"] := by
  refine ⟨rfl, ?_, ?_⟩ <;> decide

/-! ## Claim C8 — numeric sorting -/

/-- Replace a missing value of the given numeric column by an explicit `0` —
the claim's "a record with null price sorts as if its price were 0". -/
def zeroFill (col : SortColumn) (c : Car) : Car :=
  match col with
  | .price => { c with price := some (c.price.getD 0) }
  | .mileage => { c with mileage := some (c.mileage.getD 0) }
  | .engineSize => { c with engineSize := some (c.engineSize.getD 0) }
  | .insuranceGroup => { c with insuranceGroup := some (c.insuranceGroup.getD 0) }
  | .rating => { c with rating := some (c.rating.getD 0) }
  | .year => { c with year := some (c.year.getD 0) }

theorem numVal_zeroFill (col : SortColumn) (c : Car) :
    numVal col (zeroFill col c) = numVal col c := by
  cases col <;> rfl

theorem sortRel_zeroFill (col : SortColumn) (asc : Bool) (a b : Car) :
    sortRel col asc (zeroFill col a) (zeroFill col b) ↔ sortRel col asc a b := by
  unfold sortRel
  rw [numVal_zeroFill, numVal_zeroFill]

instance (col : SortColumn) (asc : Bool) : IsTotal Car (sortRel col asc) := by
  constructor
  intro a b
  unfold sortRel
  cases asc <;> simp <;> exact le_total _ _

instance (col : SortColumn) (asc : Bool) : IsTrans Car (sortRel col asc) := by
  constructor
  intro a b c
  unfold sortRel
  cases asc <;> simp
  · exact fun h1 h2 => le_trans h2 h1
  · exact fun h1 h2 => le_trans h1 h2

theorem orderedInsert_map (r : Car → Car → Prop) [DecidableRel r] (f : Car → Car)
    (hf : ∀ a b, r (f a) (f b) ↔ r a b) (a : Car) :
    ∀ l : List Car, List.orderedInsert r (f a) (l.map f) = (List.orderedInsert r a l).map f := by
  intro l
  induction l with
  | nil => rfl
  | cons b t ih =>
    by_cases h : r a b
    · simp only [List.map_cons, List.orderedInsert]
      rw [if_pos ((hf a b).mpr h), if_pos h]
      simp
    · simp only [List.map_cons, List.orderedInsert]
      rw [if_neg (fun hh => h ((hf a b).mp hh)), if_neg h]
      simp [ih]

/-- A stable sort of relabelled elements is the relabelling of the stable
sort, whenever the relabelling preserves the comparator. -/
theorem insertionSort_map (r : Car → Car → Prop) [DecidableRel r] (f : Car → Car)
    (hf : ∀ a b, r (f a) (f b) ↔ r a b) :
    ∀ l : List Car, List.insertionSort r (l.map f) = (List.insertionSort r l).map f := by
  intro l
  induction l with
  | nil => rfl
  | cons b t ih =>
    simp only [List.map_cons, List.insertionSort, ih]
    exact orderedInsert_map r f hf b _

/-- **C8**: for records with pairwise distinct price keys, sorting by price
descending is exactly the reverse of sorting ascending; and for every numeric
column a missing value sorts exactly as the value `0` — filling the missing
column with 0 commutes with sorting (the keys compare as numbers; the model
uses exact rationals, on which the float comparisons of the source agree). -/
theorem C8_sorting_reverse_and_missing_as_zero (cars : List Car) :
    ((cars.map (numVal .price)).Pairwise (· ≠ ·) →
      applySorting cars .price false = (applySorting cars .price true).reverse) ∧
    (∀ (col : SortColumn) (asc : Bool),
      applySorting (cars.map (zeroFill col)) col asc =
        (applySorting cars col asc).map (zeroFill col)) := by
  constructor
  · intro hpw
    have h1 : List.Sorted (sortRel .price false) (applySorting cars .price false) :=
      List.sorted_insertionSort _ _
    have h2 : List.Sorted (sortRel .price true) (applySorting cars .price true) :=
      List.sorted_insertionSort _ _
    have hp1 : List.Perm (applySorting cars .price false) cars := List.perm_insertionSort _ _
    have hp2 : List.Perm (applySorting cars .price true) cars := List.perm_insertionSort _ _
    have hrev : List.Perm ((applySorting cars .price true).reverse) cars :=
      (List.reverse_perm _).trans hp2
    have h3 : List.Pairwise (sortRel .price false) ((applySorting cars .price true).reverse) :=
      List.pairwise_reverse.mpr h2
    have hne : cars.Pairwise (fun a b => numVal .price a ≠ numVal .price b) :=
      List.pairwise_map.mp hpw
    have hsymm : ∀ {x y : Car},
        (fun a b => numVal .price a ≠ numVal .price b) x y →
        (fun a b => numVal .price a ≠ numVal .price b) y x := fun h => h.symm
    have hne1 : (applySorting cars .price false).Pairwise
        (fun a b => numVal .price a ≠ numVal .price b) :=
      (List.Perm.pairwise_iff hsymm hp1).mpr hne
    have hne2 : ((applySorting cars .price true).reverse).Pairwise
        (fun a b => numVal .price a ≠ numVal .price b) :=
      (List.Perm.pairwise_iff hsymm hrev).mpr hne
    have hstrict : ∀ l : List Car, l.Pairwise (sortRel .price false) →
        l.Pairwise (fun a b => numVal .price a ≠ numVal .price b) →
        l.Pairwise (fun a b => numVal .price b < numVal .price a) := by
      intro l hs hn
      exact (hs.and hn).imp (fun h => lt_of_le_of_ne h.1 (fun e => h.2 e.symm))
    haveI : IsAntisymm Car (fun a b => numVal .price b < numVal .price a) :=
      ⟨fun a b hab hba => absurd (lt_trans hab hba) (lt_irrefl _)⟩
    exact List.eq_of_perm_of_sorted (hp1.trans hrev.symm)
      (hstrict _ h1 hne1) (hstrict _ h3 hne2)
  · intro col asc
    exact insertionSort_map (sortRel col asc) (zeroFill col) (sortRel_zeroFill col asc) cars

theorem C8_sorting_reverse_and_missing_as_zero_witness :
    (applySorting [{ price := some 5 }, { price := none }, { price := some 3 }] .price false =
      (applySorting [{ price := some 5 }, { price := none }, { price := some 3 }]
        .price true).reverse) ∧
    (applySorting ([{ price := some 5 }, { price := none }].map (zeroFill .price))
        .price true =
      (applySorting [{ price := some 5 }, { price := none }] .price true).map
        (zeroFill .price)) :=
  ⟨(C8_sorting_reverse_and_missing_as_zero
      [{ price := some 5 }, { price := none }, { price := some 3 }]).1 (by decide),
   (C8_sorting_reverse_and_missing_as_zero [{ price := some 5 }, { price := none }]).2
     .price true⟩

/-! ## Claim C10 — year extraction from the registration plate -/

theorem uint32_le_iff_toNat (a b : UInt32) : a ≤ b ↔ a.toNat ≤ b.toNat := by
  rw [UInt32.le_def, BitVec.le_def]
  exact Iff.rfl

theorem isUpper_iff (c : Char) : c.isUpper = true ↔ 65 ≤ c.toNat ∧ c.toNat ≤ 90 := by
  unfold Char.isUpper
  simp only [Bool.and_eq_true, decide_eq_true_eq, ge_iff_le]
  rw [uint32_le_iff_toNat, uint32_le_iff_toNat]
  exact Iff.rfl

theorem isDigit_iff (c : Char) : c.isDigit = true ↔ 48 ≤ c.toNat ∧ c.toNat ≤ 57 := by
  unfold Char.isDigit
  simp only [Bool.and_eq_true, decide_eq_true_eq, ge_iff_le]
  rw [uint32_le_iff_toNat, uint32_le_iff_toNat]
  exact Iff.rfl

/-- The current UK plate format, stated from the spec wording: exactly two
letters (codepoints 65-90 after normalization), two digits, three letters;
yields the two-digit code. -/
def specPlateCode (r : String) : Option Nat :=
  match r.data with
  | [a, b, c, d, e, f, g] =>
    if (65 ≤ a.toNat ∧ a.toNat ≤ 90) ∧ (65 ≤ b.toNat ∧ b.toNat ≤ 90) ∧
       (48 ≤ c.toNat ∧ c.toNat ≤ 57) ∧ (48 ≤ d.toNat ∧ d.toNat ≤ 57) ∧
       (65 ≤ e.toNat ∧ e.toNat ≤ 90) ∧ (65 ≤ f.toNat ∧ f.toNat ≤ 90) ∧
       (65 ≤ g.toNat ∧ g.toNat ≤ 90)
    then some ((c.toNat - 48) * 10 + (d.toNat - 48)) else none
  | _ => none

/-- The spec's year mapping on an optionally matched plate code. -/
def specYearOf (o : Option Nat) : Option Nat :=
  match o with
  | some code => some (if code ≤ 49 then 2000 + code else 2000 + (code - 50))
  | none => none

/-- The seven-character case of the format equivalence, stated on the
characters themselves. -/
theorem plate_case (a b c d e f g : Char) :
    (if (a.isUpper && b.isUpper && c.isDigit && d.isDigit &&
         e.isUpper && f.isUpper && g.isUpper) = true then
       if 50 ≤ (c.toNat - 48) * 10 + (d.toNat - 48) ∧
          (c.toNat - 48) * 10 + (d.toNat - 48) ≤ 99
       then some (2000 + ((c.toNat - 48) * 10 + (d.toNat - 48) - 50))
       else if (c.toNat - 48) * 10 + (d.toNat - 48) ≤ 49
       then some (2000 + ((c.toNat - 48) * 10 + (d.toNat - 48)))
       else none
     else none) =
    specYearOf
      (if (65 ≤ a.toNat ∧ a.toNat ≤ 90) ∧ (65 ≤ b.toNat ∧ b.toNat ≤ 90) ∧
          (48 ≤ c.toNat ∧ c.toNat ≤ 57) ∧ (48 ≤ d.toNat ∧ d.toNat ≤ 57) ∧
          (65 ≤ e.toNat ∧ e.toNat ≤ 90) ∧ (65 ≤ f.toNat ∧ f.toNat ≤ 90) ∧
          (65 ≤ g.toNat ∧ g.toNat ≤ 90)
       then some ((c.toNat - 48) * 10 + (d.toNat - 48)) else none) := by
  by_cases hp : (65 ≤ a.toNat ∧ a.toNat ≤ 90) ∧ (65 ≤ b.toNat ∧ b.toNat ≤ 90) ∧
      (48 ≤ c.toNat ∧ c.toNat ≤ 57) ∧ (48 ≤ d.toNat ∧ d.toNat ≤ 57) ∧
      (65 ≤ e.toNat ∧ e.toNat ≤ 90) ∧ (65 ≤ f.toNat ∧ f.toNat ≤ 90) ∧
      (65 ≤ g.toNat ∧ g.toNat ≤ 90)
  · have hb : (a.isUpper && b.isUpper && c.isDigit && d.isDigit &&
        e.isUpper && f.isUpper && g.isUpper) = true := by
      obtain ⟨h1, h2, h3, h4, h5, h6, h7⟩ := hp
      simp only [Bool.and_eq_true, isUpper_iff, isDigit_iff]
      exact ⟨⟨⟨⟨⟨⟨h1, h2⟩, h3⟩, h4⟩, h5⟩, h6⟩, h7⟩
    rw [if_pos hb, if_pos hp]
    obtain ⟨_, _, ⟨hc1, hc2⟩, ⟨hd1, hd2⟩, _⟩ := hp
    simp only [specYearOf]
    by_cases hyc : (c.toNat - 48) * 10 + (d.toNat - 48) ≤ 49
    · rw [if_neg (by omega : ¬ (50 ≤ (c.toNat - 48) * 10 + (d.toNat - 48) ∧
          (c.toNat - 48) * 10 + (d.toNat - 48) ≤ 99)), if_pos hyc, if_pos hyc]
    · rw [if_pos (⟨by omega, by omega⟩ : 50 ≤ (c.toNat - 48) * 10 + (d.toNat - 48) ∧
          (c.toNat - 48) * 10 + (d.toNat - 48) ≤ 99), if_neg hyc]
  · have hb : ¬ ((a.isUpper && b.isUpper && c.isDigit && d.isDigit &&
        e.isUpper && f.isUpper && g.isUpper) = true) := by
      intro hbt
      apply hp
      simp only [Bool.and_eq_true, isUpper_iff, isDigit_iff] at hbt
      obtain ⟨⟨⟨⟨⟨⟨h1, h2⟩, h3⟩, h4⟩, h5⟩, h6⟩, h7⟩ := hbt
      exact ⟨h1, h2, h3, h4, h5, h6, h7⟩
    rw [if_neg hb, if_neg hp]
    simp only [specYearOf]

/-- **C10**: `extractYearFromRegistration` returns a year exactly when the
normalized registration matches two letters, two digits, three letters; the
code `0-49` maps to `2000 + code` and `50-99` to `2000 + (code - 50)`; every
other input (including the empty registration) yields `none`. -/
theorem C10_extract_year_format (s : String) :
    extractYearFromRegistration s =
      specYearOf (specPlateCode (normalizeRegistration s)) := by
  unfold extractYearFromRegistration specPlateCode
  by_cases hs : s = ""
  · rw [if_pos hs]
    subst hs
    rfl
  · rw [if_neg hs]
    generalize (normalizeRegistration s).data = l
    rcases l with _ | ⟨a, _ | ⟨b, _ | ⟨c, _ | ⟨d, _ | ⟨e, _ | ⟨f, _ | ⟨g, _ | ⟨h8, t⟩⟩⟩⟩⟩⟩⟩⟩
    · rfl
    · rfl
    · rfl
    · rfl
    · rfl
    · rfl
    · rfl
    · exact plate_case a b c d e f g
    · rfl

end CarSpec
